import Mathlib

/-!
Verification of the end-to-end encrypted messaging repository.

The development shallowly embeds the JavaScript sources:

* the AES-256-GCM message layer (`encryptMessage` / `decryptMessage` and the
  helpers `toBase64` / `fromBase64` / `randomBytes`);
* the Dashboard inbox dispatch (`handleCheckInbox`) and the decrypt loop of
  `handleLoadMessages`;
* the backend key-exchange transport router (`/kx/send`, `/kx/inbox`);
* the backend encrypted-message router (`/messages/send`,
  `/messages/conversation/:peerUsername/:sessionId`) over the mongoose
  `Message` schema.

Platform primitives that are not part of the repository are modelled
symbolically:

* `crypto.subtle` AES-GCM is an ideal AEAD: a ciphertext records the key, the
  initialization vector, the associated data and the plaintext, and
  decryption succeeds exactly when key, IV and associated data all match,
  returning the recorded plaintext (the standard symbolic model of an AEAD);
* `TextEncoder.encode` is the codepoint sequence of the string (an injective
  encoding, as UTF-8 is);
* `JSON.stringify` / `JSON.parse` over the fixed plaintext-object shape are
  idealized as the identity on that record (the pair is inverse for objects
  of string and number fields);
* `btoa` / `atob` (wrapped by the repository's `toBase64` / `fromBase64`)
  are a mutually inverse text-safe encoding, modelled as an abstract tag;
* `crypto.getRandomValues` draws successive bytes from a random tape;
* JavaScript template-literal rendering of a number (`${msgSeq}`) is decimal
  notation, implemented below as a fuel-based structural recursion
  (`natRepr`) so that it is kernel-reducible;
* `String.prototype.toLowerCase` is ASCII lowercasing (`strToLower`);
  usernames in this application are ASCII.

JavaScript numbers that the code only ever treats as integers (sequence
numbers, `Date.now()` timestamps) are `Nat`/`Int`.  A thrown exception from
`crypto.subtle.decrypt` is `Option.none`.
-/

/-- Model of `TextEncoder.encode` (platform): the byte encoding of a string,
represented by its codepoint sequence, which is injective exactly as UTF-8
is. -/
def utf8Encode (s : String) : List Nat :=
  s.data.map Char.toNat

/-- Little-endian decimal digits of a natural number, with explicit fuel so
that the recursion is structural and kernel-reducible.  The fuel `n` always
suffices for the number `n` itself. -/
def natDigitsAux : Nat → Nat → List Nat
  | _, 0 => []
  | 0, _ + 1 => []
  | fuel + 1, n + 1 => (n + 1) % 10 :: natDigitsAux fuel ((n + 1) / 10)

/-- Little-endian decimal digits of `n`. -/
def natDigits (n : Nat) : List Nat :=
  natDigitsAux n n

/-- Evaluate a little-endian digit list back to a number. -/
def evalDigits : List Nat → Nat
  | [] => 0
  | d :: ds => d + 10 * evalDigits ds

/-- Model of JavaScript number-to-string conversion (template literal
`${msgSeq}`): decimal notation, most significant digit first. -/
def natRepr (n : Nat) : String :=
  if n = 0 then "0"
  else String.mk ((natDigits n).reverse.map (fun d => Char.ofNat (48 + d)))

theorem evalDigits_natDigitsAux (fuel n : Nat) (h : n ≤ fuel) :
    evalDigits (natDigitsAux fuel n) = n := by
  induction fuel generalizing n with
  | zero =>
    interval_cases n
    rfl
  | succ f ih =>
    match n with
    | 0 => rfl
    | n + 1 =>
      have hdiv : (n + 1) / 10 ≤ f := by omega
      simp [natDigitsAux, evalDigits, ih _ hdiv]
      omega

theorem evalDigits_natDigits (n : Nat) : evalDigits (natDigits n) = n :=
  evalDigits_natDigitsAux n n (Nat.le_refl n)

theorem natDigits_injective {m n : Nat} (h : natDigits m = natDigits n) :
    m = n := by
  have := evalDigits_natDigits m
  rw [h, evalDigits_natDigits] at this
  omega

theorem natDigitsAux_lt_ten (fuel n : Nat) :
    ∀ d ∈ natDigitsAux fuel n, d < 10 := by
  induction fuel generalizing n with
  | zero =>
    match n with
    | 0 => intro d hd; simp [natDigitsAux] at hd
    | n + 1 => intro d hd; simp [natDigitsAux] at hd
  | succ f ih =>
    match n with
    | 0 => intro d hd; simp [natDigitsAux] at hd
    | n + 1 =>
      intro d hd
      simp only [natDigitsAux, List.mem_cons] at hd
      rcases hd with h | h
      · omega
      · exact ih _ d h

theorem char_toNat_injective {c d : Char} (h : c.toNat = d.toNat) : c = d := by
  apply Char.ext
  apply UInt32.ext
  simpa [Char.toNat] using h

theorem utf8Encode_injective {s t : String}
    (h : utf8Encode s = utf8Encode t) : s = t := by
  apply congrArg String.mk
  unfold utf8Encode at h
  exact List.map_injective_iff.mpr (fun _ _ => char_toNat_injective) h

theorem digitChar_inj_on {a b : Nat} (ha : a < 10) (hb : b < 10)
    (h : Char.ofNat (48 + a) = Char.ofNat (48 + b)) : a = b := by
  interval_cases a <;> interval_cases b <;>
    first
    | rfl
    | exact absurd h (by decide)

theorem map_digitChar_inj {l₁ l₂ : List Nat}
    (h₁ : ∀ d ∈ l₁, d < 10) (h₂ : ∀ d ∈ l₂, d < 10)
    (h : l₁.map (fun d => Char.ofNat (48 + d)) =
         l₂.map (fun d => Char.ofNat (48 + d))) : l₁ = l₂ := by
  induction l₁ generalizing l₂ with
  | nil =>
    cases l₂ with
    | nil => rfl
    | cons b bs => simp at h
  | cons a as ih =>
    cases l₂ with
    | nil => simp at h
    | cons b bs =>
      simp only [List.map_cons, List.cons.injEq] at h
      obtain ⟨hab, hrest⟩ := h
      have ha : a < 10 := h₁ a (List.mem_cons_self a as)
      have hb : b < 10 := h₂ b (List.mem_cons_self b bs)
      have : a = b := digitChar_inj_on ha hb hab
      subst this
      have := ih (fun d hd => h₁ d (List.mem_cons_of_mem a hd))
        (fun d hd => h₂ d (List.mem_cons_of_mem a hd)) hrest
      rw [this]

theorem natDigits_lt_ten (n : Nat) : ∀ d ∈ natDigits n, d < 10 :=
  natDigitsAux_lt_ten n n

/-- The rendered digit characters of `natRepr` determine the digit list. -/
theorem natRepr_digits_eq {m n : Nat}
    (h : (natDigits m).reverse.map (fun d => Char.ofNat (48 + d)) =
         (natDigits n).reverse.map (fun d => Char.ofNat (48 + d))) :
    m = n := by
  have h10m : ∀ d ∈ (natDigits m).reverse, d < 10 := by
    intro d hd; exact natDigits_lt_ten m d (List.mem_reverse.mp hd)
  have h10n : ∀ d ∈ (natDigits n).reverse, d < 10 := by
    intro d hd; exact natDigits_lt_ten n d (List.mem_reverse.mp hd)
  have hrev := map_digitChar_inj h10m h10n h
  apply natDigits_injective
  have := congrArg List.reverse hrev
  simpa using this

theorem zeroRepr_data :
    ("0" : String).data = [(0 : Nat)].map (fun d => Char.ofNat (48 + d)) := by
  decide

theorem natRepr_injective {m n : Nat} (h : natRepr m = natRepr n) : m = n := by
  by_cases hm : m = 0 <;> by_cases hn : n = 0
  · omega
  · exfalso
    rw [natRepr, natRepr, if_pos hm, if_neg hn] at h
    have hdata : ("0" : String).data =
        (natDigits n).reverse.map (fun d => Char.ofNat (48 + d)) :=
      congrArg String.data h
    rw [zeroRepr_data] at hdata
    have h100 : ∀ d ∈ [(0 : Nat)], d < 10 := by decide
    have h10n : ∀ d ∈ (natDigits n).reverse, d < 10 := by
      intro d hd; exact natDigits_lt_ten n d (List.mem_reverse.mp hd)
    have heq := map_digitChar_inj h100 h10n hdata
    have hdig : natDigits n = [0] := by
      have := congrArg List.reverse heq
      simpa using this.symm
    have hev := evalDigits_natDigits n
    rw [hdig] at hev
    simp [evalDigits] at hev
    omega
  · exfalso
    rw [natRepr, natRepr, if_neg hm, if_pos hn] at h
    have hdata : (natDigits m).reverse.map (fun d => Char.ofNat (48 + d)) =
        ("0" : String).data :=
      congrArg String.data h
    rw [zeroRepr_data] at hdata
    have h100 : ∀ d ∈ [(0 : Nat)], d < 10 := by decide
    have h10m : ∀ d ∈ (natDigits m).reverse, d < 10 := by
      intro d hd; exact natDigits_lt_ten m d (List.mem_reverse.mp hd)
    have heq := map_digitChar_inj h10m h100 hdata
    have hdig : natDigits m = [0] := by
      have := congrArg List.reverse heq
      simpa using this
    have hev := evalDigits_natDigits m
    rw [hdig] at hev
    simp [evalDigits] at hev
    omega
  · rw [natRepr, natRepr, if_neg hm, if_neg hn] at h
    exact natRepr_digits_eq (congrArg String.data h)

/-! ## Random generator and helpers of `messageCrypto.js` -/

/-- Model of the platform CSPRNG behind `crypto.getRandomValues`: an infinite
byte tape together with the current read position. -/
structure Rng where
  tape : Nat → Nat
  pos : Nat

/-- `randomBytes(len)` (messageCrypto.js lines 22-26): fills an array with
`len` fresh bytes from the generator.  The model returns the bytes and the
advanced generator. -/
def randomBytes (len : Nat) (g : Rng) : List Nat × Rng :=
  ((List.range len).map (fun i => g.tape (g.pos + i) % 256),
   { tape := g.tape, pos := g.pos + len })

/-- Abstract text-safe encoding produced by `toBase64` (btoa over a byte
string).  `toBase64` and `fromBase64` (messageCrypto.js lines 9-20) are
mutually inverse on byte arrays, so the model keeps the encoded value intact
behind a tag. -/
structure B64 (α : Type) where
  val : α
deriving DecidableEq

/-- `toBase64` (messageCrypto.js lines 9-11). -/
def toBase64 {α : Type} (bytes : α) : B64 α :=
  ⟨bytes⟩

/-- `fromBase64` (messageCrypto.js lines 13-20). -/
def fromBase64 {α : Type} (b : B64 α) : α :=
  b.val

/-! ## Ideal AES-256-GCM (platform `crypto.subtle`) -/

/-- The JSON plaintext object built by `encryptMessage`
(messageCrypto.js lines 40-47).  It stands for the UTF-8 bytes of
`JSON.stringify` of the object; `JSON.parse ∘ JSON.stringify` is the
identity on this shape, so the record itself is carried. -/
structure PlaintextObj where
  sessionId : String
  fromUser : String
  toUser : String
  msgSeq : Nat
  timestamp : Nat
  content : String
deriving DecidableEq

/-- Ideal AES-GCM ciphertext: records the encryption key, IV, associated
data and plaintext.  Decryption authenticates by comparing all three
parameters. -/
structure GCMBlob where
  key : Nat
  iv : List Nat
  aad : List Nat
  plaintext : PlaintextObj
deriving DecidableEq

/-- Model of `crypto.subtle.encrypt({name:'AES-GCM', iv, additionalData}, key, bytes)`. -/
def gcmEncrypt (key : Nat) (iv aad : List Nat) (plaintext : PlaintextObj) : GCMBlob :=
  { key := key, iv := iv, aad := aad, plaintext := plaintext }

/-- Model of `crypto.subtle.decrypt`: succeeds exactly when key, IV and
associated data match the ones used at encryption, returning the original
plaintext; any mismatch is an authentication failure (a rejected promise in
the source, `none` here), and no plaintext is released. -/
def gcmDecrypt (key : Nat) (iv aad : List Nat) (c : GCMBlob) : Option PlaintextObj :=
  if c.key = key ∧ c.iv = iv ∧ c.aad = aad then some c.plaintext else none

/-! ## `encryptMessage` / `decryptMessage` (messageCrypto.js lines 37-104) -/

/-- The object returned by `encryptMessage` (messageCrypto.js lines 64-69):
exactly the fields `ciphertext`, `iv`, `timestamp`, `msgSeq`. -/
structure EncryptResult where
  ciphertext : B64 GCMBlob
  iv : B64 (List Nat)
  timestamp : Nat
  msgSeq : Nat
deriving DecidableEq

/-- The message argument of `decryptMessage` (messageCrypto.js line 78):
`{ from, to, sessionId, ciphertext, iv, msgSeq, timestamp }`.  `from` and
`to` are Lean keywords and are rendered `fromUser` / `toUser` throughout. -/
structure EnvelopeIn where
  fromUser : String
  toUser : String
  sessionId : String
  ciphertext : B64 GCMBlob
  iv : B64 (List Nat)
  msgSeq : Nat
  timestamp : Nat
deriving DecidableEq

/-- The object returned by `decryptMessage` (messageCrypto.js lines 96-103). -/
structure DecryptedMessage where
  fromUser : String
  toUser : String
  sessionId : String
  msgSeq : Nat
  timestamp : Nat
  content : String
deriving DecidableEq

/-- `encryptMessage(aesKey, sessionId, from, to, msgSeq, content)`
(messageCrypto.js lines 37-70).  `Date.now()` is the extra argument `now`;
the CSPRNG state is threaded explicitly. -/
def encryptMessage (aesKey : Nat) (sessionId fromUser toUser : String)
    (msgSeq : Nat) (content : String) (now : Nat) (g : Rng) :
    EncryptResult × Rng :=
  let timestamp := now
  let plaintextObj : PlaintextObj :=
    { sessionId := sessionId, fromUser := fromUser, toUser := toUser,
      msgSeq := msgSeq, timestamp := timestamp, content := content }
  let ivg := randomBytes 12 g
  let aad := utf8Encode (sessionId ++ "|" ++ fromUser ++ "|" ++ toUser ++ "|" ++ natRepr msgSeq)
  let ciphertext := gcmEncrypt aesKey ivg.1 aad plaintextObj
  ({ ciphertext := toBase64 ciphertext, iv := toBase64 ivg.1,
     timestamp := timestamp, msgSeq := msgSeq }, ivg.2)

/-- `decryptMessage(aesKey, message)` (messageCrypto.js lines 77-104).
The associated data is recomputed from the envelope's own metadata fields;
a GCM authentication failure is a thrown exception in the source, `none`
here, and no plaintext is returned in that case. -/
def decryptMessage (aesKey : Nat) (message : EnvelopeIn) : Option DecryptedMessage :=
  let ivBytes := fromBase64 message.iv
  let cipherBytes := fromBase64 message.ciphertext
  let aad := utf8Encode (message.sessionId ++ "|" ++ message.fromUser ++ "|" ++
    message.toUser ++ "|" ++ natRepr message.msgSeq)
  match gcmDecrypt aesKey ivBytes aad cipherBytes with
  | none => none
  | some obj =>
      some { fromUser := message.fromUser, toUser := message.toUser,
             sessionId := message.sessionId, msgSeq := message.msgSeq,
             timestamp := if obj.timestamp ≠ 0 then obj.timestamp else message.timestamp,
             content := obj.content }

/-- Assembles the stored/transported envelope around an `encryptMessage`
result, as the application does: the Dashboard sends
`{sessionId, to, ciphertext, iv, msgSeq, timestamp}` (Dashboard
`handleSendMessage`), the backend adds `from`, and the conversation route
returns all seven fields to `decryptMessage`. -/
def envelopeFrom (r : EncryptResult) (sessionId fromUser toUser : String)
    (msgSeq : Nat) : EnvelopeIn :=
  { fromUser := fromUser, toUser := toUser, sessionId := sessionId,
    ciphertext := r.ciphertext, iv := r.iv, msgSeq := msgSeq,
    timestamp := r.timestamp }

/-- The decrypt loop of `handleLoadMessages` (Dashboard): every message of
the conversation is decrypted with the session key; successes are collected
in order, failures are logged and skipped. -/
def loadMessages (aesKey : Nat) (msgs : List EnvelopeIn) : List DecryptedMessage :=
  msgs.filterMap (decryptMessage aesKey)

/-- The associated-data bytes as the specification words them: the UTF-8
encoding of the string `sessionId|from|to|msgSeq`. -/
def aadSpec (sessionId fromUser toUser : String) (msgSeq : Nat) : List Nat :=
  utf8Encode (sessionId ++ "|" ++ fromUser ++ "|" ++ toUser ++ "|" ++ natRepr msgSeq)

/-! ## Backend key-exchange transport (`backend/routes/kx.js`) -/

/-- Model of `Char.toLowerCase` as JavaScript applies it to ASCII
usernames: letters `A`-`Z` map to `a`-`z`, everything else is unchanged. -/
def charToLower (c : Char) : Char :=
  if 65 ≤ c.toNat ∧ c.toNat ≤ 90 then Char.ofNat (c.toNat + 32) else c

/-- Model of `String.prototype.toLowerCase` (ASCII range). -/
def strToLower (s : String) : String :=
  String.mk (s.data.map charToLower)

/-- A message in the in-memory `kxMessages` store (kx.js lines 46-53):
`id` is the `Date.now() + Math.random()` token, `payload` is opaque. -/
structure KxStoreMsg where
  id : Nat
  fromUser : String
  toUser : String
  messageType : String
  payload : Nat
  createdAt : Nat
deriving DecidableEq

/-- JavaScript truthiness of a possibly-missing string field: `!x` holds
when the field is absent or the empty string. -/
def falsyStr : Option String → Bool
  | none => true
  | some s => s = ""

/-- `POST /kx/send` (kx.js lines 36-66): validates `to`, `messageType`,
`payload` for truthiness, then pushes a message built from the
authenticated username onto the store.  `freshId`/`now` stand for
`Date.now()`-based values. -/
def kxSend (user : String) (toUser messageType : Option String)
    (payload : Option Nat) (freshId now : Nat) (store : List KxStoreMsg) :
    Option (List KxStoreMsg × Nat) :=
  if falsyStr toUser || falsyStr messageType || payload.isNone then none
  else
    let msg : KxStoreMsg :=
      { id := freshId, fromUser := user, toUser := toUser.getD "",
        messageType := messageType.getD "", payload := payload.getD 0,
        createdAt := now }
    some (store ++ [msg], freshId)

/-- The filter of `GET /kx/inbox` (kx.js lines 75-78): the recipient is
compared case-insensitively, and a falsy or non-string `to` never
matches. -/
def inboxMatches (usernameLower : String) (m : KxStoreMsg) : Bool :=
  !(m.toUser = "") && (strToLower m.toUser = usernameLower)

/-- `kxMessages.findIndex` followed by `splice(idx, 1)` (kx.js lines
81-84): removes the first message with the given id, if any. -/
def removeFirstById : List KxStoreMsg → Nat → List KxStoreMsg
  | [], _ => []
  | m :: ms, i => if m.id = i then ms else m :: removeFirstById ms i

/-- `GET /kx/inbox` (kx.js lines 69-98): collects the authenticated user's
messages case-insensitively, deletes each delivered message from the store
by id, and returns the delivered list together with the updated store. -/
def inboxFetch (store : List KxStoreMsg) (username : String) :
    List KxStoreMsg × List KxStoreMsg :=
  let usernameLower := strToLower username
  let userMessages := store.filter (inboxMatches usernameLower)
  let newStore := userMessages.foldl (fun st msg => removeFirstById st msg.id) store
  (userMessages, newStore)

/-! ## Dashboard inbox dispatch (`handleCheckInbox`) -/

/-- The slice of the Dashboard `kxContext` state that the inbox dispatch
reads: the role string and the peer/session identifiers. -/
structure KxContext where
  role : String
  peer : String
  sessionId : String
deriving DecidableEq

/-- What `handleCheckInbox` does with one inbox message: which protocol
branch runs, or the fall-through `addLog` of an unrelated message. -/
inductive KxAction where
  | respondToInit
  | deriveKeyAndConfirmA
  | verifyConfirmAAndSendB
  | verifyConfirmB
  | logUnrelated
deriving DecidableEq

/-- `kxContext && kxContext.role === r` in the branch guards. -/
def roleIs (ctx : Option KxContext) (r : String) : Bool :=
  match ctx with
  | none => false
  | some c => c.role = r

/-- The branch structure of the message loop in `handleCheckInbox`
(Dashboard, part_000 lines 579-665): `KEY_INIT` is always handled;
`KEY_RESP` / `KEY_CONFIRM_A` / `KEY_CONFIRM_B` require a context with the
matching role; everything else falls through to the
`Received unrelated KX message` log line. -/
def dispatchKx (kxContext : Option KxContext) (m : KxStoreMsg) : KxAction :=
  if m.messageType = "KEY_INIT" then .respondToInit
  else if m.messageType = "KEY_RESP" && roleIs kxContext "initiator" then .deriveKeyAndConfirmA
  else if m.messageType = "KEY_CONFIRM_A" && roleIs kxContext "responder" then .verifyConfirmAAndSendB
  else if m.messageType = "KEY_CONFIRM_B" && roleIs kxContext "initiator" then .verifyConfirmB
  else .logUnrelated

/-- The whole `for (const msg of messages)` loop of `handleCheckInbox`:
inside one invocation the `kxContext` closure variable is fixed (React's
`setKxContext` does not mutate it mid-loop), so each message is dispatched
against the same context. -/
def processInbox (kxContext : Option KxContext) (msgs : List KxStoreMsg) :
    List KxAction :=
  msgs.map (dispatchKx kxContext)

/-! ## Encrypted-message routes (`backend/routes/messages` part of kx.js) -/

/-- The body of `POST /messages/send` as the handler reads it
(kx.js messages router lines 135-168); a `from` field may be present in
the request but is never read. -/
structure MsgSendBody where
  sessionId : Option String
  toUser : Option String
  ciphertext : Option String
  iv : Option String
  msgSeq : Option Int
  timestamp : Option Nat
  fromUser : Option String
deriving DecidableEq

/-- A persisted `Message` document (backend/models/Message.js):
the schema fields plus the automatic `_id` / `createdAt` / `updatedAt`. -/
structure DbMessage where
  sessionId : String
  fromUser : String
  toUser : String
  ciphertext : String
  iv : String
  msgSeq : Int
  timestamp : Nat
  docId : Nat
  createdAt : Nat
  updatedAt : Nat
deriving DecidableEq

/-- Outcome of `POST /messages/send`: 400 with nothing stored, or 201 with
the document that was saved. -/
inductive SendOutcome where
  | badRequest
  | stored (m : DbMessage)
deriving DecidableEq

/-- `POST /messages/send` (kx.js messages router lines 135-168): rejects
with 400 unless `sessionId`, `to`, `ciphertext`, `iv` are truthy and
`msgSeq` is a number; otherwise saves a document whose `from` is
`req.user.username` from the verified JWT.  `now`/`docId` stand for the
server-side `new Date()` and mongoose-generated values. -/
def messagesSend (user : String) (body : MsgSendBody) (now docId : Nat) :
    SendOutcome :=
  if falsyStr body.sessionId || falsyStr body.toUser ||
     falsyStr body.ciphertext || falsyStr body.iv || body.msgSeq.isNone then
    .badRequest
  else
    .stored
      { sessionId := body.sessionId.getD "", fromUser := user,
        toUser := body.toUser.getD "", ciphertext := body.ciphertext.getD "",
        iv := body.iv.getD "", msgSeq := body.msgSeq.getD 0,
        timestamp :=
          match body.timestamp with
          | some t => if t ≠ 0 then t else now
          | none => now,
        docId := docId, createdAt := now, updatedAt := now }

/-- The `$or` criteria of `GET /messages/conversation/:peerUsername/:sessionId`
(kx.js messages router lines 181-187). -/
def convCriteria (me peer sessionId : String) (m : DbMessage) : Bool :=
  m.sessionId = sessionId &&
    ((m.fromUser = me && m.toUser = peer) || (m.fromUser = peer && m.toUser = me))

/-- The mongo sort key `{ msgSeq: 1, timestamp: 1 }`: ascending by `msgSeq`,
then by `timestamp`. -/
def msgSeqTimeLe (a b : DbMessage) : Prop :=
  a.msgSeq < b.msgSeq ∨ (a.msgSeq = b.msgSeq ∧ a.timestamp ≤ b.timestamp)

instance : DecidableRel msgSeqTimeLe := fun a b => by
  unfold msgSeqTimeLe
  infer_instance

instance : IsTotal DbMessage msgSeqTimeLe :=
  ⟨by intro a b; unfold msgSeqTimeLe; omega⟩

instance : IsTrans DbMessage msgSeqTimeLe :=
  ⟨by intro a b c; unfold msgSeqTimeLe; omega⟩

/-- The projection of lines 192-200: only ciphertext, IV and metadata are
returned — the type has no field that could carry plaintext. -/
structure SafeMessage where
  fromUser : String
  toUser : String
  sessionId : String
  ciphertext : String
  iv : String
  msgSeq : Int
  timestamp : Nat
deriving DecidableEq

/-- The per-document mapping of lines 192-200. -/
def toSafeMessage (m : DbMessage) : SafeMessage :=
  { fromUser := m.fromUser, toUser := m.toUser, sessionId := m.sessionId,
    ciphertext := m.ciphertext, iv := m.iv, msgSeq := m.msgSeq,
    timestamp := m.timestamp }

/-- `GET /messages/conversation/:peerUsername/:sessionId` (kx.js messages
router lines 171-211): 400 on falsy parameters, otherwise the stored
messages matching the criteria, sorted by `(msgSeq, timestamp)` ascending
and projected to `SafeMessage`. -/
def getConversation (me peer sessionId : String) (store : List DbMessage) :
    Except Nat (List SafeMessage) :=
  if peer = "" || sessionId = "" then .error 400
  else
    .ok (((store.filter (convCriteria me peer sessionId)).insertionSort
      msgSeqTimeLe).map toSafeMessage)

/-! ## Helper lemmas -/

theorem string_data_inj {s t : String} (h : s.data = t.data) : s = t :=
  congrArg String.mk h

theorem pipe_data : ("|" : String).data = ['|'] := rfl

theorem aadString_data (s f t : String) (q : Nat) :
    (s ++ "|" ++ f ++ "|" ++ t ++ "|" ++ natRepr q).data =
      s.data ++ '|' :: (f.data ++ '|' :: (t.data ++ '|' :: (natRepr q).data)) := by
  simp [String.data_append, pipe_data]

/-- Decrypting the envelope assembled from an `encryptMessage` output, with
the same key and the same metadata, recovers the plaintext object. -/
theorem decrypt_encrypt (aesKey : Nat) (sessionId fromUser toUser : String)
    (msgSeq : Nat) (content : String) (now : Nat) (g : Rng) :
    decryptMessage aesKey
      (envelopeFrom (encryptMessage aesKey sessionId fromUser toUser msgSeq content now g).1
        sessionId fromUser toUser msgSeq) =
      some { fromUser := fromUser, toUser := toUser, sessionId := sessionId,
             msgSeq := msgSeq, timestamp := now, content := content } := by
  simp [encryptMessage, decryptMessage, envelopeFrom, gcmEncrypt, gcmDecrypt,
    toBase64, fromBase64]

theorem aad_inj_sessionId {s s' f t : String} {q : Nat}
    (h : utf8Encode (s ++ "|" ++ f ++ "|" ++ t ++ "|" ++ natRepr q) =
         utf8Encode (s' ++ "|" ++ f ++ "|" ++ t ++ "|" ++ natRepr q)) :
    s = s' := by
  have hstr := utf8Encode_injective h
  have hdata := congrArg String.data hstr
  rw [aadString_data, aadString_data] at hdata
  exact string_data_inj (List.append_cancel_right hdata)

theorem aad_inj_fromUser {s f f' t : String} {q : Nat}
    (h : utf8Encode (s ++ "|" ++ f ++ "|" ++ t ++ "|" ++ natRepr q) =
         utf8Encode (s ++ "|" ++ f' ++ "|" ++ t ++ "|" ++ natRepr q)) :
    f = f' := by
  have hstr := utf8Encode_injective h
  have hdata := congrArg String.data hstr
  rw [aadString_data, aadString_data] at hdata
  have h1 := List.append_cancel_left hdata
  injection h1 with _ h2
  exact string_data_inj (List.append_cancel_right h2)

theorem aad_inj_toUser {s f t t' : String} {q : Nat}
    (h : utf8Encode (s ++ "|" ++ f ++ "|" ++ t ++ "|" ++ natRepr q) =
         utf8Encode (s ++ "|" ++ f ++ "|" ++ t' ++ "|" ++ natRepr q)) :
    t = t' := by
  have hstr := utf8Encode_injective h
  have hdata := congrArg String.data hstr
  rw [aadString_data, aadString_data] at hdata
  have h1 := List.append_cancel_left hdata
  injection h1 with _ h2
  have h3 := List.append_cancel_left h2
  injection h3 with _ h4
  exact string_data_inj (List.append_cancel_right h4)

theorem aad_inj_msgSeq {s f t : String} {q q' : Nat}
    (h : utf8Encode (s ++ "|" ++ f ++ "|" ++ t ++ "|" ++ natRepr q) =
         utf8Encode (s ++ "|" ++ f ++ "|" ++ t ++ "|" ++ natRepr q')) :
    q = q' := by
  have hstr := utf8Encode_injective h
  have hdata := congrArg String.data hstr
  rw [aadString_data, aadString_data] at hdata
  have h1 := List.append_cancel_left hdata
  injection h1 with _ h2
  have h3 := List.append_cancel_left h2
  injection h3 with _ h4
  have h5 := List.append_cancel_left h4
  injection h5 with _ h6
  exact natRepr_injective (string_data_inj h6)

/-- Full characterization of `decryptMessage`: it succeeds exactly when the
ciphertext's recorded key, IV and associated data match the key argument,
the envelope IV, and the associated data recomputed from the envelope's own
metadata. -/
theorem decryptMessage_eq (aesKey : Nat) (m : EnvelopeIn) :
    decryptMessage aesKey m =
      if (fromBase64 m.ciphertext).key = aesKey ∧
         (fromBase64 m.ciphertext).iv = fromBase64 m.iv ∧
         (fromBase64 m.ciphertext).aad = aadSpec m.sessionId m.fromUser m.toUser m.msgSeq
      then some { fromUser := m.fromUser, toUser := m.toUser,
                  sessionId := m.sessionId, msgSeq := m.msgSeq,
                  timestamp :=
                    if (fromBase64 m.ciphertext).plaintext.timestamp ≠ 0
                    then (fromBase64 m.ciphertext).plaintext.timestamp
                    else m.timestamp,
                  content := (fromBase64 m.ciphertext).plaintext.content }
      else none := by
  by_cases hc : (fromBase64 m.ciphertext).key = aesKey ∧
      (fromBase64 m.ciphertext).iv = fromBase64 m.iv ∧
      (fromBase64 m.ciphertext).aad = aadSpec m.sessionId m.fromUser m.toUser m.msgSeq
  · simp [decryptMessage, gcmDecrypt, aadSpec, hc] at *
  · simp only [decryptMessage, gcmDecrypt, aadSpec] at *
    rw [if_neg hc, if_neg hc]

/-- C1: for every AES key, sessionId, from, to, msgSeq and plaintext,
decrypting (with the same key) the envelope assembled from the output of
`encryptMessage` with the same metadata succeeds and returns the original
plaintext as `content` together with the matching `from`, `to`,
`sessionId` and `msgSeq`. -/
theorem C1_encrypt_decrypt_roundtrip (aesKey : Nat)
    (sessionId fromUser toUser : String) (msgSeq : Nat) (content : String)
    (now : Nat) (g : Rng) :
    decryptMessage aesKey
      (envelopeFrom (encryptMessage aesKey sessionId fromUser toUser msgSeq content now g).1
        sessionId fromUser toUser msgSeq) =
      some { fromUser := fromUser, toUser := toUser, sessionId := sessionId,
             msgSeq := msgSeq, timestamp := now, content := content } :=
  decrypt_encrypt aesKey sessionId fromUser toUser msgSeq content now g

/-- C2: altering any single metadata field (`sessionId`, `from`, `to` or
`msgSeq`) of an envelope produced by `encryptMessage` makes
`decryptMessage` fail (the GCM authentication rejects), and the failure
returns no plaintext at all (`none`). -/
theorem C2_metadata_tamper_fails (aesKey : Nat)
    (sessionId fromUser toUser : String) (msgSeq : Nat) (content : String)
    (now : Nat) (g : Rng) (s' f' t' : String) (q' : Nat) :
    let env := envelopeFrom
      (encryptMessage aesKey sessionId fromUser toUser msgSeq content now g).1
      sessionId fromUser toUser msgSeq
    (s' ≠ sessionId → decryptMessage aesKey { env with sessionId := s' } = none) ∧
    (f' ≠ fromUser → decryptMessage aesKey { env with fromUser := f' } = none) ∧
    (t' ≠ toUser → decryptMessage aesKey { env with toUser := t' } = none) ∧
    (q' ≠ msgSeq → decryptMessage aesKey { env with msgSeq := q' } = none) := by
  refine ⟨?_, ?_, ?_, ?_⟩ <;> intro hne <;>
    rw [decryptMessage_eq, if_neg] <;>
    rintro ⟨-, -, haad⟩ <;>
    simp only [envelopeFrom, encryptMessage, toBase64, fromBase64, gcmEncrypt,
      aadSpec] at haad
  · exact hne (aad_inj_sessionId haad).symm
  · exact hne (aad_inj_fromUser haad).symm
  · exact hne (aad_inj_toUser haad).symm
  · exact hne (aad_inj_msgSeq haad).symm

/-- Witness for C2 at a concrete input: decrypting a ciphertext produced for
`msgSeq = 1` as if `msgSeq = 2` fails. -/
theorem C2_metadata_tamper_fails_witness :
    (2 : Nat) ≠ 1 ∧
    decryptMessage 7
      { envelopeFrom (encryptMessage 7 "s1" "alice" "bob" 1 "hello" 1000 ⟨fun i => i, 0⟩).1
          "s1" "alice" "bob" 1 with msgSeq := 2 } = none :=
  ⟨by decide,
   (C2_metadata_tamper_fails 7 "s1" "alice" "bob" 1 "hello" 1000 ⟨fun i => i, 0⟩
      "x" "y" "z" 2).2.2.2 (by decide)⟩

/-- C3: the associated data of `encryptMessage` is exactly the UTF-8
encoding of `sessionId|from|to|msgSeq`, and `decryptMessage` only succeeds
when the ciphertext's associated data equals the same encoding recomputed
from the envelope's own metadata fields — hence encrypt and decrypt over
identical metadata use byte-identical associated data. -/
theorem C3_aad_exact (aesKey : Nat) (sessionId fromUser toUser : String)
    (msgSeq : Nat) (content : String) (now : Nat) (g : Rng)
    (aesKey2 : Nat) (m : EnvelopeIn) :
    (fromBase64 (encryptMessage aesKey sessionId fromUser toUser msgSeq content now g).1.ciphertext).aad
        = utf8Encode (sessionId ++ "|" ++ fromUser ++ "|" ++ toUser ++ "|" ++ natRepr msgSeq) ∧
    (decryptMessage aesKey2 m ≠ none →
      (fromBase64 m.ciphertext).aad =
        utf8Encode (m.sessionId ++ "|" ++ m.fromUser ++ "|" ++ m.toUser ++ "|" ++ natRepr m.msgSeq)) := by
  constructor
  · simp [encryptMessage, gcmEncrypt, toBase64, fromBase64]
  · intro hne
    rw [decryptMessage_eq] at hne
    by_cases hc : (fromBase64 m.ciphertext).key = aesKey2 ∧
        (fromBase64 m.ciphertext).iv = fromBase64 m.iv ∧
        (fromBase64 m.ciphertext).aad = aadSpec m.sessionId m.fromUser m.toUser m.msgSeq
    · exact hc.2.2
    · rw [if_neg hc] at hne
      exact absurd rfl hne

/-- Witness for C3 at a concrete input: a successfully decrypting envelope
whose ciphertext carries exactly the spec associated data. -/
theorem C3_aad_exact_witness :
    decryptMessage 7
        (envelopeFrom (encryptMessage 7 "s1" "alice" "bob" 1 "hello" 1000 ⟨fun i => i, 0⟩).1
          "s1" "alice" "bob" 1) ≠ none ∧
    (fromBase64 (envelopeFrom (encryptMessage 7 "s1" "alice" "bob" 1 "hello" 1000 ⟨fun i => i, 0⟩).1
          "s1" "alice" "bob" 1).ciphertext).aad =
      utf8Encode ("s1" ++ "|" ++ "alice" ++ "|" ++ "bob" ++ "|" ++ natRepr 1) :=
  ⟨by decide,
   (C3_aad_exact 0 "" "" "" 0 "" 0 ⟨fun _ => 0, 0⟩ 7
      (envelopeFrom (encryptMessage 7 "s1" "alice" "bob" 1 "hello" 1000 ⟨fun i => i, 0⟩).1
        "s1" "alice" "bob" 1)).2 (by decide)⟩

/-- C4 counterexample: two distinct plaintexts encrypted under the same key
and the same `(sessionId, from, to, msgSeq)` tuple produce envelopes that
BOTH decrypt successfully — the associated data does not make tuple reuse
fail on decrypt. -/
theorem C4_counterexample :
    ("hello" : String) ≠ "world" ∧
    decryptMessage 7
        (envelopeFrom (encryptMessage 7 "s1" "alice" "bob" 1 "hello" 1000 ⟨fun i => i, 0⟩).1
          "s1" "alice" "bob" 1) =
      some { fromUser := "alice", toUser := "bob", sessionId := "s1",
             msgSeq := 1, timestamp := 1000, content := "hello" } ∧
    decryptMessage 7
        (envelopeFrom (encryptMessage 7 "s1" "alice" "bob" 1 "world" 2000 ⟨fun i => i + 1, 0⟩).1
          "s1" "alice" "bob" 1) =
      some { fromUser := "alice", toUser := "bob", sessionId := "s1",
             msgSeq := 1, timestamp := 2000, content := "world" } :=
  ⟨by decide, by decide, by decide⟩

/-- C4 amended: the associated data binds the metadata tuple to each
ciphertext, but reusing the tuple `(sessionId, from, to, msgSeq)` with a
different plaintext is NOT rejected — every envelope decrypts successfully
under the metadata it was encrypted with, regardless of what else was
encrypted under the same key and tuple. -/
theorem C4_amended_tuple_reuse_accepted (aesKey : Nat)
    (sessionId fromUser toUser : String) (msgSeq : Nat)
    (content₁ content₂ : String) (now₁ now₂ : Nat) (g₁ g₂ : Rng) :
    decryptMessage aesKey
        (envelopeFrom (encryptMessage aesKey sessionId fromUser toUser msgSeq content₁ now₁ g₁).1
          sessionId fromUser toUser msgSeq) =
      some { fromUser := fromUser, toUser := toUser, sessionId := sessionId,
             msgSeq := msgSeq, timestamp := now₁, content := content₁ } ∧
    decryptMessage aesKey
        (envelopeFrom (encryptMessage aesKey sessionId fromUser toUser msgSeq content₂ now₂ g₂).1
          sessionId fromUser toUser msgSeq) =
      some { fromUser := fromUser, toUser := toUser, sessionId := sessionId,
             msgSeq := msgSeq, timestamp := now₂, content := content₂ } :=
  ⟨decrypt_encrypt aesKey sessionId fromUser toUser msgSeq content₁ now₁ g₁,
   decrypt_encrypt aesKey sessionId fromUser toUser msgSeq content₂ now₂ g₂⟩

/-- C5: `decryptMessage` keeps no state across calls: in the Dashboard's
decrypt loop a valid envelope decrypts to the same result regardless of
which envelopes were processed before it, and replaying it (decrypting the
same envelope twice) succeeds both times with the same result. -/
theorem C5_stateless_replay (aesKey : Nat) (sessionId fromUser toUser : String)
    (msgSeq : Nat) (content : String) (now : Nat) (g : Rng)
    (prior : List EnvelopeIn) :
    let env := envelopeFrom
      (encryptMessage aesKey sessionId fromUser toUser msgSeq content now g).1
      sessionId fromUser toUser msgSeq
    let d : DecryptedMessage :=
      { fromUser := fromUser, toUser := toUser, sessionId := sessionId,
        msgSeq := msgSeq, timestamp := now, content := content }
    loadMessages aesKey (prior ++ [env, env]) = loadMessages aesKey prior ++ [d, d] := by
  intro env d
  have h := decrypt_encrypt aesKey sessionId fromUser toUser msgSeq content now g
  simp [loadMessages, List.filterMap_append, List.filterMap_cons, h]

/-! ## Inbox delivery lemmas -/

theorem foldl_remove_cons (m : KxStoreMsg) (st : List KxStoreMsg)
    (l : List KxStoreMsg) (h : ∀ x ∈ l, x.id ≠ m.id) :
    l.foldl (fun acc msg => removeFirstById acc msg.id) (m :: st) =
      m :: l.foldl (fun acc msg => removeFirstById acc msg.id) st := by
  induction l generalizing st with
  | nil => rfl
  | cons x xs ih =>
    have hx : x.id ≠ m.id := h x (List.mem_cons_self x xs)
    simp only [List.foldl_cons, removeFirstById]
    rw [if_neg (fun he => hx he.symm)]
    exact ih (removeFirstById st x.id) (fun y hy => h y (List.mem_cons_of_mem x hy))

/-- When ids are unique, delivering and then removing the matched messages
is the same as filtering them out of the store. -/
theorem foldl_remove_filter (store : List KxStoreMsg) (p : KxStoreMsg → Bool)
    (h : (store.map KxStoreMsg.id).Nodup) :
    (store.filter p).foldl (fun acc msg => removeFirstById acc msg.id) store =
      store.filter (fun m => !(p m)) := by
  induction store with
  | nil => rfl
  | cons m ms ih =>
    simp only [List.map_cons, List.nodup_cons] at h
    obtain ⟨hm, hms⟩ := h
    by_cases hp : p m
    · rw [List.filter_cons_of_pos hp, List.filter_cons_of_neg (by simp [hp])]
      simp only [List.foldl_cons, removeFirstById, if_pos rfl]
      exact ih hms
    · rw [List.filter_cons_of_neg (by simp [hp]),
        List.filter_cons_of_pos (by simp [hp])]
      rw [foldl_remove_cons]
      · rw [ih hms]
      · intro x hx hne
        apply hm
        rw [← hne]
        exact List.mem_map_of_mem KxStoreMsg.id (List.mem_of_mem_filter hx)

/-- Specification of `inboxFetch` on stores with unique message ids:
delivered messages are exactly the matching ones, and the updated store is
exactly the non-matching ones. -/
theorem inboxFetch_spec (store : List KxStoreMsg) (user : String)
    (h : (store.map KxStoreMsg.id).Nodup) :
    inboxFetch store user =
      (store.filter (inboxMatches (strToLower user)),
       store.filter (fun m => !(inboxMatches (strToLower user) m))) := by
  simp only [inboxFetch]
  rw [foldl_remove_filter store (inboxMatches (strToLower user)) h]

/-- C9: `GET /kx/inbox` removes from the in-memory store every message it
returns (matching the recipient case-insensitively): delivered messages are
no longer in the updated store, and fetching again delivers nothing — the
demo transport is at-most-once per message, and an unconsumed message is
gone from the store. -/
theorem C9_inbox_at_most_once (store : List KxStoreMsg) (user : String)
    (h : (store.map KxStoreMsg.id).Nodup) :
    (inboxFetch store user).1 = store.filter (inboxMatches (strToLower user)) ∧
    (inboxFetch store user).2 =
      store.filter (fun m => !(inboxMatches (strToLower user) m)) ∧
    (∀ m ∈ (inboxFetch store user).1, m ∉ (inboxFetch store user).2) ∧
    (inboxFetch (inboxFetch store user).2 user).1 = [] := by
  have hspec := inboxFetch_spec store user h
  refine ⟨by rw [hspec], by rw [hspec], ?_, ?_⟩
  · intro m hm hcontra
    rw [hspec] at hm hcontra
    simp only [List.mem_filter] at hm hcontra
    rw [hm.2] at hcontra
    simp at hcontra
  · rw [hspec]
    simp only [inboxFetch]
    rw [List.filter_filter]
    have : ∀ m : KxStoreMsg,
        (inboxMatches (strToLower user) m && !(inboxMatches (strToLower user) m)) = false := by
      intro m
      cases inboxMatches (strToLower user) m <;> rfl
    simp only [this, List.filter_false]

/-- Witness for C9 at a concrete store with distinct ids. -/
theorem C9_inbox_at_most_once_witness :
    (([⟨1, "alice", "bob", "KEY_INIT", 0, 0⟩,
       ⟨2, "carol", "dave", "KEY_INIT", 0, 0⟩] : List KxStoreMsg).map KxStoreMsg.id).Nodup ∧
    (∀ m ∈ (inboxFetch [⟨1, "alice", "bob", "KEY_INIT", 0, 0⟩,
        ⟨2, "carol", "dave", "KEY_INIT", 0, 0⟩] "bob").1,
      m ∉ (inboxFetch [⟨1, "alice", "bob", "KEY_INIT", 0, 0⟩,
        ⟨2, "carol", "dave", "KEY_INIT", 0, 0⟩] "bob").2) :=
  ⟨by decide,
   (C9_inbox_at_most_once
      [⟨1, "alice", "bob", "KEY_INIT", 0, 0⟩, ⟨2, "carol", "dave", "KEY_INIT", 0, 0⟩]
      "bob" (by decide)).2.2.1⟩

/-- C6 counterexample: a KEY_RESP delivered to a receiver with no initiator
context is fetched (and thereby deleted from the server store) and then
ignored by the dispatch; once a matching initiator context exists, a new
fetch returns nothing — the ignored message was not deferred and can never
be processed, although the dispatch would have processed it had the context
existed at delivery time. -/
theorem C6_counterexample :
    inboxFetch [⟨1, "alice", "bob", "KEY_RESP", 0, 0⟩] "bob" =
      ([⟨1, "alice", "bob", "KEY_RESP", 0, 0⟩], []) ∧
    dispatchKx none ⟨1, "alice", "bob", "KEY_RESP", 0, 0⟩ = KxAction.logUnrelated ∧
    dispatchKx (some ⟨"initiator", "alice", "s1"⟩) ⟨1, "alice", "bob", "KEY_RESP", 0, 0⟩ =
      KxAction.deriveKeyAndConfirmA ∧
    inboxFetch [] "bob" = ([], []) :=
  ⟨by decide, by decide, by decide, by decide⟩

/-- C6 amended: a protocol message whose type/role has no matching local
context is ignored as a non-fatal event — it maps to the fall-through log
branch, every other inbox message is dispatched exactly as it would be
without it, and other sessions are untouched; but it is not deferred: the
inbox fetch already removed every delivered message from the store (unique
ids assumed), so an ignored message cannot be processed later. -/
theorem C6_amended_unmatched_ignored_not_deferred (ctx : Option KxContext)
    (m : KxStoreMsg) (pre post store : List KxStoreMsg) (user : String)
    (hty : m.messageType = "KEY_RESP")
    (hrole : roleIs ctx "initiator" = false)
    (hids : (store.map KxStoreMsg.id).Nodup) :
    dispatchKx ctx m = KxAction.logUnrelated ∧
    processInbox ctx (pre ++ m :: post) =
      processInbox ctx pre ++ KxAction.logUnrelated :: processInbox ctx post ∧
    (∀ x ∈ (inboxFetch store user).1, x ∉ (inboxFetch store user).2) := by
  have h1 : dispatchKx ctx m = KxAction.logUnrelated := by
    simp [dispatchKx, hty, hrole]
  refine ⟨h1, ?_, ?_⟩
  · simp [processInbox, h1]
  · intro x hx hcontra
    have hspec := inboxFetch_spec store user hids
    rw [hspec] at hx hcontra
    simp only [List.mem_filter] at hx hcontra
    rw [hx.2] at hcontra
    simp at hcontra

/-- Witness for the amended C6 at a concrete input. -/
theorem C6_amended_witness :
    (⟨1, "alice", "bob", "KEY_RESP", 0, 0⟩ : KxStoreMsg).messageType = "KEY_RESP" ∧
    roleIs none "initiator" = false ∧
    dispatchKx none ⟨1, "alice", "bob", "KEY_RESP", 0, 0⟩ = KxAction.logUnrelated :=
  ⟨by decide, by decide,
   (C6_amended_unmatched_ignored_not_deferred none ⟨1, "alice", "bob", "KEY_RESP", 0, 0⟩
      [] [] [] "bob" (by decide) (by decide) (by decide)).1⟩

/-- C7: `encryptMessage` draws its IV as the next 12 bytes of the random
generator — an expression depending only on the generator, not on the key,
metadata or plaintext — advances the generator by exactly those 12 bytes,
and returns a record with exactly the fields `ciphertext` (base64 of the
GCM output), `iv` (base64 of the fresh IV), `timestamp` and `msgSeq`; a
second call, whatever its arguments, draws the following 12 bytes. -/
theorem C7_fresh_iv (aesKey : Nat) (sessionId fromUser toUser : String)
    (msgSeq : Nat) (content : String) (now : Nat) (g : Rng)
    (aesKey₂ : Nat) (sessionId₂ fromUser₂ toUser₂ : String) (msgSeq₂ : Nat)
    (content₂ : String) (now₂ : Nat) :
    encryptMessage aesKey sessionId fromUser toUser msgSeq content now g =
      ({ ciphertext := toBase64 (gcmEncrypt aesKey
            ((List.range 12).map (fun i => g.tape (g.pos + i) % 256))
            (aadSpec sessionId fromUser toUser msgSeq)
            { sessionId := sessionId, fromUser := fromUser, toUser := toUser,
              msgSeq := msgSeq, timestamp := now, content := content }),
         iv := toBase64 ((List.range 12).map (fun i => g.tape (g.pos + i) % 256)),
         timestamp := now, msgSeq := msgSeq },
       { tape := g.tape, pos := g.pos + 12 }) ∧
    ((List.range 12).map (fun i => g.tape (g.pos + i) % 256)).length = 12 ∧
    fromBase64 (encryptMessage aesKey₂ sessionId₂ fromUser₂ toUser₂ msgSeq₂ content₂ now₂
        { tape := g.tape, pos := g.pos + 12 }).1.iv =
      (List.range 12).map (fun i => g.tape (g.pos + 12 + i) % 256) := by
  refine ⟨rfl, by simp, rfl⟩

/-- C8: `POST /messages/send` rejects with 400 (storing nothing) whenever
`sessionId`, `to`, `ciphertext` or `iv` is missing or `msgSeq` is not a
number; any message it does store has `from` equal to the username of the
verified JWT, and the outcome is independent of any `from` field a client
may put in the request body. -/
theorem C8_send_from_jwt (user : String) (body : MsgSendBody)
    (now docId : Nat) (x : Option String) :
    ((body.sessionId = none ∨ body.toUser = none ∨ body.ciphertext = none ∨
        body.iv = none ∨ body.msgSeq = none) →
      messagesSend user body now docId = SendOutcome.badRequest) ∧
    (∀ m : DbMessage, messagesSend user body now docId = SendOutcome.stored m →
      m.fromUser = user) ∧
    messagesSend user { body with fromUser := x } now docId =
      messagesSend user body now docId := by
  refine ⟨?_, ?_, rfl⟩
  · rintro (h | h | h | h | h) <;> simp [messagesSend, falsyStr, h]
  · intro m hm
    unfold messagesSend at hm
    split at hm
    · exact absurd hm (by simp)
    · injection hm with h
      rw [← h]

/-- Witness for C8 at concrete inputs: a request missing `sessionId` is
rejected, and the outcome ignores a forged `from` in the body. -/
theorem C8_send_from_jwt_witness :
    messagesSend "alice" ⟨none, some "bob", some "ct", some "iv9", some 1, none, none⟩ 5 9 =
      SendOutcome.badRequest ∧
    messagesSend "alice"
        ⟨some "s1", some "bob", some "ct", some "iv9", some 1, none, some "mallory"⟩ 5 9 =
      messagesSend "alice" ⟨some "s1", some "bob", some "ct", some "iv9", some 1, none, none⟩ 5 9 :=
  ⟨(C8_send_from_jwt "alice" ⟨none, some "bob", some "ct", some "iv9", some 1, none, none⟩
      5 9 none).1 (Or.inl rfl),
   (C8_send_from_jwt "alice" ⟨some "s1", some "bob", some "ct", some "iv9", some 1, none, none⟩
      5 9 (some "mallory")).2.2⟩

/-- C10: the conversation route returns exactly the stored messages whose
`sessionId` matches and whose `(from, to)` pair is `(me, peer)` or
`(peer, me)` — as a permutation of the filtered, projected store — sorted
ascending by `msgSeq` then `timestamp`, each projected to the seven
`SafeMessage` fields (a type with no plaintext field). -/
theorem C10_conversation_query (me peer sessionId : String)
    (store : List DbMessage) (hp : peer ≠ "") (hs : sessionId ≠ "") :
    ∃ l, getConversation me peer sessionId store = .ok l ∧
      l.Perm ((store.filter (convCriteria me peer sessionId)).map toSafeMessage) ∧
      l.Pairwise (fun a b => a.msgSeq < b.msgSeq ∨
        (a.msgSeq = b.msgSeq ∧ a.timestamp ≤ b.timestamp)) := by
  refine ⟨((store.filter (convCriteria me peer sessionId)).insertionSort
      msgSeqTimeLe).map toSafeMessage, ?_, ?_, ?_⟩
  · unfold getConversation
    rw [if_neg (by simp [hp, hs])]
  · exact List.Perm.map toSafeMessage
      (List.perm_insertionSort msgSeqTimeLe (store.filter (convCriteria me peer sessionId)))
  · have hsorted := List.sorted_insertionSort msgSeqTimeLe
      (store.filter (convCriteria me peer sessionId))
    exact List.Pairwise.map toSafeMessage (fun a b hab => hab) hsorted

/-- Witness for C10 at a concrete input. -/
theorem C10_conversation_query_witness :
    ("bob" : String) ≠ "" ∧ ("s1" : String) ≠ "" ∧
    ∃ l, getConversation "alice" "bob" "s1" [] = .ok l ∧
      l.Perm ((([] : List DbMessage).filter (convCriteria "alice" "bob" "s1")).map toSafeMessage) ∧
      l.Pairwise (fun a b => a.msgSeq < b.msgSeq ∨
        (a.msgSeq = b.msgSeq ∧ a.timestamp ≤ b.timestamp)) :=
  ⟨by decide, by decide,
   C10_conversation_query "alice" "bob" "s1" [] (by decide) (by decide)⟩
